import Mathlib

/-!
Verification of the natural-language specification of the
`custom-react-starter` scaffolding CLI against a shallow embedding of its
JavaScript sources (`src/bin/cli.js` and the unnamed script variants).

The embedding models strings as Lean `String`s, the JavaScript string
primitives used by the CLI (`includes`, `startsWith`, `replace` with a
literal first-occurrence pattern, `trim`, `split`) as structurally
recursive functions on `List Char`, the parsed-argument record as a
structure, and the side-effecting pipeline of the flag-based variant as a
pure function from an abstract environment (what the filesystem and the
subprocesses would answer) to a trace of effects plus an exit outcome.
-/

namespace ReactStarter

/-- Does the character list `l` start with the pattern `p`?
Model of `String.prototype.startsWith` restricted to the lists of
characters of the two strings. -/
def listStartsWith : List Char → List Char → Bool
  | _, [] => true
  | [], _ :: _ => false
  | a :: as, b :: bs => a == b && listStartsWith as bs

/-- Does the character list `l` contain the pattern `p` as a contiguous
sublist?  Model of `String.prototype.includes`. -/
def listContains : List Char → List Char → Bool
  | [], pat => pat.isEmpty
  | s :: rest, pat => listStartsWith (s :: rest) pat || listContains rest pat

/-- JavaScript `s.includes(pat)`. -/
def containsStr (s pat : String) : Bool := listContains s.data pat.data

/-- JavaScript `s.startsWith(pat)`. -/
def strStartsWith (s pat : String) : Bool := listStartsWith s.data pat.data

/-- Replace the first occurrence of `pat` in a character list by `repl`;
if `pat` does not occur the list is returned unchanged.  Model of
JavaScript `String.prototype.replace` with a string (or literal regex)
pattern, which replaces only the first occurrence. -/
def replaceFirstList (pat repl : List Char) : List Char → List Char
  | [] => []
  | c :: rest =>
    if listStartsWith (c :: rest) pat then repl ++ (c :: rest).drop pat.length
    else c :: replaceFirstList pat repl rest

/-- JavaScript `s.replace(pat, repl)` for a string pattern: first
occurrence only. -/
def replaceFirst (s pat repl : String) : String :=
  ⟨replaceFirstList pat.data repl.data s.data⟩

/-- Split a character list at every occurrence of the separator
character, accumulating the current piece in reverse.  Model of
JavaScript `String.prototype.split` with a one-character separator. -/
def splitOnCharAux (sep : Char) : List Char → List Char → List (List Char)
  | [], acc => [acc.reverse]
  | c :: rest, acc =>
    if c == sep then acc.reverse :: splitOnCharAux sep rest []
    else splitOnCharAux sep rest (c :: acc)

/-- JavaScript `arg.split("=")[1]` as used on `--pm=` arguments in
`parseArgs`: the piece between the first and the second `=` (the empty
string when nothing follows the first `=`). -/
def pmValue (arg : String) : String :=
  ⟨(splitOnCharAux '=' arg.data []).getD 1 []⟩

/-- ASCII whitespace, as trimmed by `String.prototype.trim` on the
inputs relevant here. -/
def isWs (c : Char) : Bool := c == ' ' || c == '\t' || c == '\n' || c == '\r'

/-- JavaScript `name.trim()` (ASCII whitespace model). -/
def strTrim (s : String) : String :=
  ⟨((s.data.dropWhile isWs).reverse.dropWhile isWs).reverse⟩

/-- A character admitted by the project-name regular expression
`[a-z0-9-]`. -/
def isNameChar (c : Char) : Bool :=
  ('a' ≤ c && c ≤ 'z') || ('0' ≤ c && c ≤ '9') || c == '-'

/-- Does `s` match `^[a-z0-9-]+$`: nonempty and made only of lowercase
letters, digits and hyphens? -/
def matchesNameRegex (s : String) : Bool :=
  !s.data.isEmpty && s.data.all isNameChar

/-- Result of the interactive name validator in `src/bin/cli.js`
(`validateProjectName`): JavaScript returns `true` to accept and an
explanatory message string to reject. -/
inductive NameValidation where
  | accepted : NameValidation
  | rejected : String → NameValidation
deriving DecidableEq

/-- Embedding of `validateProjectName` from `src/bin/cli.js`: trim the
input, reject the empty result, reject anything not matching
`^[a-z0-9-]+$`, accept the rest. -/
def validateProjectName (name : String) : NameValidation :=
  let sanitized := strTrim name
  if sanitized.data.isEmpty then .rejected "Project name cannot be empty"
  else if !matchesNameRegex sanitized then
    .rejected "Project name should only contain lowercase letters, numbers, and hyphens"
  else .accepted

/-- The options record filled in by `parseArgs` in the flag-based CLI
variant (`src/unnamed/part_002`), fields in source order.  `projectName`
is an `Option String` because the `--all` branch assigns the result of
`Array.prototype.find`, which is `undefined` when no positional argument
exists, while the initial value is the empty string. -/
structure CliOptions where
  tailwind : Bool
  i18n : Bool
  projectName : Option String
  help : Bool
  packageManager : String
  authPages : Bool
deriving DecidableEq

/-- Initial value of the options record in `parseArgs`. -/
def defaultOptions : CliOptions :=
  { tailwind := false, i18n := false, projectName := some "", help := false
    packageManager := "pnpm", authPages := false }

/-- Result of `parseArgs`: either the filled options record or a call to
`process.exit` with the given code. -/
inductive ParseResult where
  | ok : CliOptions → ParseResult
  | exit : Nat → ParseResult
deriving DecidableEq

/-- The package managers accepted by the `--pm=` flag. -/
def validPMs : List String := ["npm", "pnpm", "yarn", "bun"]

/-- The `for` loop of `parseArgs`: each argument is matched against the
flag forms in source order; an unsupported `--pm=` value exits the
process with code 1; an argument not starting with `--` becomes the
project name. -/
def parseLoop : List String → CliOptions → ParseResult
  | [], opts => .ok opts
  | arg :: rest, opts =>
    if arg = "--tailwind" then parseLoop rest { opts with tailwind := true }
    else if arg = "--i18n" then parseLoop rest { opts with i18n := true }
    else if arg = "--help" ∨ arg = "-h" then parseLoop rest { opts with help := true }
    else if arg = "--auth-pages" then parseLoop rest { opts with authPages := true }
    else if strStartsWith arg "--pm=" then
      if validPMs.contains (pmValue arg) then
        parseLoop rest { opts with packageManager := pmValue arg }
      else .exit 1
    else if !strStartsWith arg "--" then parseLoop rest { opts with projectName := some arg }
    else parseLoop rest opts

/-- Embedding of `parseArgs` from `src/unnamed/part_002`.  If any
argument starts with `--all` or `-a`, the function enables the three
features, picks the first argument not starting with `--` as the project
name, and returns immediately; otherwise it runs the flag loop. -/
def parseArgs (args : List String) : ParseResult :=
  if args.any (fun a => strStartsWith a "--all" || strStartsWith a "-a") then
    .ok { defaultOptions with
            tailwind := true, i18n := true, authPages := true
            projectName := args.find? (fun a => !strStartsWith a "--") }
  else parseLoop args defaultOptions

/-- The effect of one loop iteration of `parseArgs` on the options
record, with the unsupported-`--pm=` exit factored out (used to state
what the loop computes when every `--pm=` value is supported). -/
def applyArg (opts : CliOptions) (arg : String) : CliOptions :=
  if arg = "--tailwind" then { opts with tailwind := true }
  else if arg = "--i18n" then { opts with i18n := true }
  else if arg = "--help" ∨ arg = "-h" then { opts with help := true }
  else if arg = "--auth-pages" then { opts with authPages := true }
  else if strStartsWith arg "--pm=" then { opts with packageManager := pmValue arg }
  else if !strStartsWith arg "--" then { opts with projectName := some arg }
  else opts

/-- Replace every `--all` argument by the three individual feature
flags it abbreviates. -/
def expandAll : List String → List String
  | [] => []
  | a :: rest =>
    (if a = "--all" then ["--tailwind", "--i18n", "--auth-pages"] else [a]) ++
      expandAll rest

/-! ### Feature-composer patch functions from `src/bin/cli.js`

Each composer reads a template file, checks for a marker substring, and
splices in imports/providers with first-occurrence string replacement.
Apostrophes and braces inside the JavaScript template literals are
written with `\x27`, `\x7b` and `\x7d` escapes. -/

/-- The `main.tsx` patch of `configureI18n` in `src/bin/cli.js`: guarded
by the marker `I18nextProvider`; inserts the provider import after the
`index.css` import and wraps the router in the provider. -/
def patchMainForI18n (content : String) : String :=
  if containsStr content "I18nextProvider" then content
  else
    let c1 := replaceFirst content "import \x27./index.css\x27"
      "import \x27./index.css\x27;\nimport \x7b I18nextProvider \x7d from \x27react-i18next\x27;\nimport i18n from \x27./i18n\x27;"
    replaceFirst c1 "<RouterProvider router=\x7brouter\x7d />"
      "<I18nextProvider i18n=\x7bi18n\x7d>\n  <RouterProvider router=\x7brouter\x7d />\n</I18nextProvider>"

/-- The `vite.config.ts` patch of `configureTailwind` in
`src/bin/cli.js`: the import insertion is guarded by the marker
`@tailwindcss/vite` and the plugin registration by `tailwindcss()`. -/
def patchViteForTailwind (viteConfig : String) : String :=
  let v1 :=
    if containsStr viteConfig "@tailwindcss/vite" then viteConfig
    else replaceFirst viteConfig "import \x7b defineConfig \x7d from \x27vite\x27"
      "import \x7b defineConfig \x7d from \x27vite\x27;\nimport tailwindcss from \x27@tailwindcss/vite\x27;"
  if containsStr v1 "tailwindcss()" then v1
  else replaceFirst v1 "plugins: [" "plugins: [\n    tailwindcss(),"

/-- The `__root.tsx` patch of `configureReactQuery` in `src/bin/cli.js`:
the devtools import is guarded by the marker
`@tanstack/react-query-devtools` and the rendered devtools component by
`<ReactQueryDevtools />`. -/
def patchRootForReactQuery (rootTsx : String) : String :=
  let r1 :=
    if containsStr rootTsx "@tanstack/react-query-devtools" then rootTsx
    else replaceFirst rootTsx
      "import \x7b TanStackRouterDevtools \x7d from \x27@tanstack/router-devtools\x27"
      "import \x7b TanStackRouterDevtools \x7d from \x27@tanstack/router-devtools\x27;\nimport \x7b ReactQueryDevtools \x7d from \x27@tanstack/react-query-devtools\x27;"
  if containsStr r1 "<ReactQueryDevtools />" then r1
  else replaceFirst r1 "<TanStackRouterDevtools />"
    "<ReactQueryDevtools />\n      <TanStackRouterDevtools />"

/-! ### Feature-dependency install commands -/

/-- The package list of the i18n composer, shared by both variants. -/
def i18nPkgs : String :=
  "i18next react-i18next i18next-http-backend i18next-browser-languagedetector"

/-- The package list of the tailwind composer (current, Vite-based). -/
def tailwindPkgs : String := "tailwindcss @tailwindcss/vite"

/-- The package list of the react-query composer. -/
def reactQueryPkgs : String :=
  "@tanstack/react-query @tanstack/react-query-devtools"

/-- The i18n install command of `src/unnamed/part_002` (line 366).  The
template has a trailing space inside the `npm install ` branch and a
space before the package list. -/
def i18nInstallCommandP2 (projectName pm : String) : String :=
  "cd " ++ projectName ++ " && " ++
    (if pm = "npm" then "npm install " else pm ++ " add") ++
    " i18next react-i18next i18next-http-backend i18next-browser-languagedetector"

/-- The tailwind install command of `src/unnamed/part_002` (line 309):
`cd <name> && <pm> add -D tailwindcss @tailwindcss/vite`, with no
special case for npm. -/
def tailwindCommandP2 (projectName pm : String) : String :=
  "cd " ++ projectName ++ " && " ++ pm ++ " add -D tailwindcss @tailwindcss/vite"

/-- The tailwind install command of `configureTailwind` in
`src/bin/cli.js` (line 424). -/
def tailwindInstallCommandCli (pm : String) : String :=
  (if pm = "npm" then "npm install" else pm ++ " add") ++
    " tailwindcss @tailwindcss/vite"

/-- The react-query install command of `configureReactQuery` in
`src/bin/cli.js` (line 527). -/
def reactQueryInstallCommandCli (pm : String) : String :=
  (if pm = "npm" then "npm install" else pm ++ " add") ++
    " @tanstack/react-query @tanstack/react-query-devtools"

/-- The i18n install command of `configureI18n` in `src/bin/cli.js`
(line 310). -/
def i18nInstallCommandCli (projectName pm : String) : String :=
  "cd " ++ projectName ++ " && " ++
    (if pm = "npm" then "npm install" else pm ++ " add") ++
    " i18next react-i18next i18next-http-backend i18next-browser-languagedetector"

/-! ### Package manifest rewrite

`JSON.parse` of the package manifest is modelled as an association list
of fields (values abstracted to strings); JavaScript property
assignment updates the value in place when the key exists and appends
the pair otherwise. -/

/-- First value bound to key `k`, i.e. JavaScript property read. -/
def getField : List (String × String) → String → Option String
  | [], _ => none
  | kv :: rest, k => if kv.1 = k then some kv.2 else getField rest k

/-- JavaScript property assignment `obj[k] = v` on the field list:
overwrite in place if present, append otherwise. -/
def setField (obj : List (String × String)) (k v : String) :
    List (String × String) :=
  if (getField obj k).isSome then
    obj.map fun kv => if kv.1 = k then (k, v) else kv
  else obj ++ [(k, v)]

/-- The package-manifest rewrite performed after a successful clone
(both `src/unnamed/part_002` lines 288-291 and `src/bin/cli.js` lines
663-666): set `name` to the project name and `version` to `1.0.0`. -/
def updatePackageJson (obj : List (String × String)) (projectName : String) :
    List (String × String) :=
  setField (setField obj "name" projectName) "version" "1.0.0"

/-! ### Abstract filesystem for the cli.js i18n composer -/

/-- A filesystem as an association list from paths to file contents;
newer writes shadow older entries. -/
structure FS where
  files : List (String × String)
deriving DecidableEq

/-- Content of the file at `p`, if it exists. -/
def FS.readF (fs : FS) (p : String) : Option String := getField fs.files p

/-- `fs.writeFileSync(p, c)`. -/
def FS.writeF (fs : FS) (p c : String) : FS := ⟨(p, c) :: fs.files⟩

/-- `fs.existsSync(p)` restricted to files tracked by the model. -/
def FS.existsF (fs : FS) (p : String) : Bool := (getField fs.files p).isSome

/-- Embedding of `writeTranslationFile` from `src/bin/cli.js` (lines
286-290): write the serialized content only when no file exists at the
path. -/
def writeTranslationFile (fs : FS) (filePath content : String) : FS :=
  if fs.existsF filePath then fs else fs.writeF filePath content

/-- `JSON.stringify` of the English translation object written by
`configureI18n` in `src/bin/cli.js`. -/
def enTranslationCli : String :=
  "\x7b\n  \"welcome\": \"Welcome to the React App!\",\n  \"description\": \"This is a custom React starter template.\",\n  \"language\": \"Language\"\n\x7d"

/-- `JSON.stringify` of the Turkish translation object written by
`configureI18n` in `src/bin/cli.js`. -/
def trTranslationCli : String :=
  "\x7b\n  \"welcome\": \"React Uygulamasına Hoşgeldiniz!\",\n  \"description\": \"Bu, özel bir React başlangıç şablonudur.\",\n  \"language\": \"Dil\"\n\x7d"

/-- The `src/i18n.ts` module written by `configureI18n` in
`src/bin/cli.js`. -/
def i18nConfigCli : String :=
  "import i18n from \x27i18next\x27;\nimport \x7b initReactI18next \x7d from \x27react-i18next\x27;\nimport Backend from \x27i18next-http-backend\x27;\nimport LanguageDetector from \x27i18next-browser-languagedetector\x27;\nimport enTranslation from \x27../locales/en/translation.json\x27;\nimport trTranslation from \x27../locales/tr/translation.json\x27;\n\ni18n\n  .use(Backend)\n  .use(LanguageDetector)\n  .use(initReactI18next)\n  .init(\x7b\n    fallbackLng: \x27en\x27,\n    debug: process.env.NODE_ENV !== \x27production\x27,\n    resources: \x7b\n      en: \x7b translation: enTranslation \x7d,\n      tr: \x7b translation: trTranslation \x7d,\n    \x7d,\n    interpolation: \x7b\n      escapeValue: false,\n    \x7d,\n  \x7d);\n\nexport default i18n;"

/-- The `i18next.d.ts` type augmentation written by `configureI18n` in
`src/bin/cli.js`. -/
def i18nTypeDefsCli : String :=
  "import \x27i18next\x27;\nimport enTranslation from \x27../../locales/en/translation.json\x27;\nimport trTranslation from \x27../../locales/tr/translation.json\x27;\n\ndeclare module \x27i18next\x27 \x7b\n  interface CustomTypeOptions \x7b\n    defaultNS: \x27en\x27;\n    resources: \x7b\n      en: typeof enTranslation;\n      tr: typeof trTranslation;\n    \x7d;\n  \x7d\n\x7d"

/-- The filesystem-visible part of `configureI18n` in `src/bin/cli.js`
(install command and directory creation omitted): conditional
translation writes, conditional `i18n.ts` write, guarded `main.tsx`
patch, conditional type-definition write, in source order. -/
def configureI18nFilesCli (fs : FS) (projectPath : String) : FS :=
  let enFile := projectPath ++ "/locales/en/translation.json"
  let trFile := projectPath ++ "/locales/tr/translation.json"
  let fs1 := writeTranslationFile fs enFile enTranslationCli
  let fs2 := writeTranslationFile fs1 trFile trTranslationCli
  let i18nPath := projectPath ++ "/src/i18n.ts"
  let fs3 := if fs2.existsF i18nPath then fs2 else fs2.writeF i18nPath i18nConfigCli
  let mainPath := projectPath ++ "/src/main.tsx"
  let fs4 :=
    match fs3.readF mainPath with
    | none => fs3
    | some c =>
      if containsStr c "I18nextProvider" then fs3
      else fs3.writeF mainPath (patchMainForI18n c)
  let typePath := projectPath ++ "/src/@types/i18next.d.ts"
  if fs4.existsF typePath then fs4 else fs4.writeF typePath i18nTypeDefsCli

/-! ### Git reinitialization in `src/bin/cli.js` -/

/-- Outcome of `initializeGitRepository`: the JavaScript function either
logs a success or catches the thrown error and logs a warning; it never
exits the process. -/
inductive GitInit where
  | succeeded : GitInit
  | warned : String → GitInit
deriving DecidableEq

/-- Embedding of `initializeGitRepository` from `src/bin/cli.js` (lines
587-607): run `git init`, `git add`, `git commit` in order; the first
failure throws, is caught, and becomes a warning. -/
def initializeGitRepository (cmdOk : String → Bool) : GitInit :=
  if !cmdOk "git init --quiet" then
    .warned "Git initialization skipped: Git command failed: git init --quiet"
  else if !cmdOk "git add ." then
    .warned "Git initialization skipped: Git command failed: git add ."
  else if !cmdOk "git commit --quiet -m \"Initial commit\"" then
    .warned "Git initialization skipped: Git command failed: git commit --quiet -m \"Initial commit\""
  else .succeeded

/-! ### The flag-based pipeline of `src/unnamed/part_002`

`main` is modelled as a pure function from the parsed options and an
abstract environment (the answers the filesystem and the subprocesses
would give) to a trace of effects plus an exit outcome.  Informational
logging (`log.info`, `log.success`, `log.step`, …) is not traced; error
and warning messages are, because the error-handling claims are about
them.  Reaching the end of `main` without `process.exit` terminates the
process with exit status 0 and is modelled as `completed`. -/

/-- One observable action of the pipeline. -/
inductive Effect where
  | runCmd : String → Effect
  | writeFile : String → String → Effect
  | writeJson : String → List (String × String) → Effect
  | mkdir : String → Effect
  | rmrf : String → Effect
  | logError : String → Effect
  | logWarning : String → Effect
deriving DecidableEq

/-- Does the effect start a subprocess or change the filesystem
(as opposed to printing a diagnostic)? -/
def Effect.mutates : Effect → Bool
  | .logError _ => false
  | .logWarning _ => false
  | _ => true

/-- How `main` would terminate. -/
inductive MainOutcome where
  | exitCode : Nat → MainOutcome
  | completed : MainOutcome
deriving DecidableEq

/-- The environment a run of the `part_002` `main` observes: current
working directory, whether the target directory pre-exists, subprocess
exit statuses, the parsed package manifest (`none` models a read or
parse failure), and the contents of the template files to patch
(`none` models a missing file). -/
structure EnvP2 where
  cwd : String
  dirExists : Bool
  cloneOk : Bool
  pkgJson : Option (List (String × String))
  binExists : Bool
  installOk : Bool
  tailwindInstallOk : Bool
  viteConfig : Option String
  i18nInstallOk : Bool
  mainTsx : Option String
  gitInitOk : Bool

/-- The clone command of `src/unnamed/part_002` (line 277). -/
def gitCloneCommand (projectName : String) : String :=
  "git clone --depth 1 https://github.com/blntgvn42/custom-react-starter " ++ projectName

/-- The base dependency install command of `src/unnamed/part_002`
(line 278). -/
def installDepsCommand (projectName pm : String) : String :=
  "cd " ++ projectName ++ " && " ++ pm ++ " install"

/-- The git reinitialization command of `src/unnamed/part_002`
(line 435). -/
def gitInitCommandP2 (projectName : String) : String :=
  "cd " ++ projectName ++ " && git init && git add . && git commit -m \"Initial commit\""

/-- The `vite.config.ts` patch of the `part_002` tailwind block (lines
340-351): both replacements run under the single marker guard
`@tailwindcss/vite`. -/
def patchViteP2 (viteConfig : String) : String :=
  replaceFirst
    (replaceFirst viteConfig "export default defineConfig(\x7b"
      "import tailwindcss from \x27@tailwindcss/vite\x27;\n\nexport default defineConfig(\x7b")
    "plugins: [" "plugins: [\n    tailwindcss(),"

/-- The English translation file of `createI18nConfig` in
`src/unnamed/part_002`. -/
def enTranslationP2 : String :=
  "\n\x7b\n  \"welcome\": \"Welcome to the React App!\",\n  \"description\": \"This is a custom React starter template.\",\n  \"language\": \"Language\"\n\x7d"

/-- The Turkish translation file of `createI18nConfig` in
`src/unnamed/part_002`. -/
def trTranslationP2 : String :=
  "\n\x7b\n  \"welcome\": \"React Uygulamasına Hoşgeldiniz!\",\n  \"description\": \"Bu, özel bir React başlangıç şablonudur.\",\n  \"language\": \"Dil\"\n\x7d"

/-- The `src/i18n.ts` module written by `createI18nConfig` in
`src/unnamed/part_002`. -/
def i18nConfigFileP2 : String :=
  "\nimport i18n from \x27i18next\x27;\nimport \x7b initReactI18next \x7d from \x27react-i18next\x27;\nimport Backend from \x27i18next-http-backend\x27;\nimport LanguageDetector from \x27i18next-browser-languagedetector\x27;\nimport enTranslation from \x27../locales/en/translation.json\x27;\nimport trTranslation from \x27../locales/tr/translation.json\x27;\n\ni18n\n  .use(Backend)\n  .use(LanguageDetector)\n  .use(initReactI18next)\n  .init(\x7b\n    fallbackLng: \x27en\x27,\n    debug: true,\n    resources: \x7b\n      en: \x7b\n        translation: \x7b\n          ...enTranslation,\n        \x7d,\n      \x7d,\n      tr: \x7b\n        translation: \x7b\n          ...trTranslation,\n        \x7d,\n      \x7d,\n    \x7d,\n    interpolation: \x7b\n      escapeValue: false,\n    \x7d,\n  \x7d);\n\nexport default i18n;\n"

/-- The `i18n.d.ts` type augmentation written by `createI18nConfig` in
`src/unnamed/part_002`. -/
def i18nTypeDefsP2 : String :=
  "\nimport \"i18next\";\nimport enTranslation from \"../../locales/en/translation.json\";\nimport trTranslation from \"../../locales/tr/translation.json\";\n\ndeclare module \"i18next\" \x7b\n  interface CustomTypeOptions \x7b\n    defaultNS: \"en\";\n    resources: \x7b\n      en: typeof enTranslation;\n      tr: typeof trTranslation;\n    \x7d;\n    keySeparator: \".\";\n    supportedLngs: [\"en\", \"tr\"];\n  \x7d\n\x7d\n  "

/-- The `index.css` import patterns `createI18nConfig` in
`src/unnamed/part_002` searches for in `main.tsx`, in source order. -/
def patternsP2 : List String :=
  ["import \x27./index.css\x27", "import \x27./index.css\x27;",
   "import \"./index.css\"", "import \"./index.css\";"]

/-- The `main.tsx` rewrite of `createI18nConfig` in `src/unnamed/part_002`
once a pattern `pat` was found: insert the i18n imports before the
`index.css` import and wrap the router in the provider. -/
def patchMainP2 (content pat : String) : String :=
  replaceFirst
    (replaceFirst content pat
      ("import \x27./i18n\x27\nimport i18n from \x27./i18n\x27\nimport \x7b I18nextProvider \x7d from \x27react-i18next\x27\n\n" ++ pat))
    "<RouterProvider router=\x7brouter\x7d />"
    "<I18nextProvider i18n=\x7bi18n\x7d>\n  <RouterProvider router=\x7brouter\x7d />\n</I18nextProvider>"

/-- The effects of `createI18nConfig` in `src/unnamed/part_002` (lines
38-168), given the content of `src/main.tsx` (`none` models a missing
file, whose read throws; the boolean result records that throw, which
the top-level `main().catch` turns into exit status 1).  A `main.tsx`
that already mentions `i18n` is left alone; a `main.tsx` without any
`index.css` import pattern is reported with `log.error` and skipped. -/
def createI18nConfigP2 (projectPath : String) (mainTsx : Option String) :
    List Effect × Bool :=
  let enPath := projectPath ++ "/locales/en"
  let trPath := projectPath ++ "/locales/tr"
  let typesPath := projectPath ++ "/src/@types"
  let pre := [Effect.mkdir enPath, Effect.mkdir trPath, Effect.mkdir typesPath,
    Effect.writeFile (enPath ++ "/translation.json") enTranslationP2,
    Effect.writeFile (trPath ++ "/translation.json") trTranslationP2,
    Effect.writeFile (projectPath ++ "/src/i18n.ts") i18nConfigFileP2]
  match mainTsx with
  | none => (pre, true)
  | some content =>
    let patchEff :=
      if containsStr content "i18n" then []
      else
        match patternsP2.find? (fun p => containsStr content p) with
        | some pat =>
          [Effect.writeFile (projectPath ++ "/src/main.tsx") (patchMainP2 content pat)]
        | none => [Effect.logError "Could not find index.css import in main.tsx"]
    (pre ++ patchEff ++
      [Effect.writeFile (typesPath ++ "/i18n.d.ts") i18nTypeDefsP2], false)

/-- The tailwind block of the `part_002` `main` (lines 307-361): install
(fatal on failure), overwrite `index.css`, then patch `vite.config.ts`
when present and not yet containing the marker.  The second component is
the exit code when the block aborts the run. -/
def tailwindStageP2 (opts : CliOptions) (env : EnvP2)
    (projectName projectPath : String) : List Effect × Option Nat :=
  if !opts.tailwind then ([], none)
  else
    let t := [Effect.runCmd (tailwindCommandP2 projectName opts.packageManager)]
    if !env.tailwindInstallOk then (t, some 1)
    else
      let t2 := t ++ [Effect.writeFile (projectPath ++ "/src/index.css") "@import \"tailwindcss\";"]
      let t3 := t2 ++
        match env.viteConfig with
        | some vc =>
          if !containsStr vc "@tailwindcss/vite" then
            [Effect.writeFile (projectName ++ "/vite.config.ts") (patchViteP2 vc)]
          else [Effect.logWarning "Tailwind CSS is already included in vite.config.ts"]
        | none => [Effect.logError "vite.config.ts not found, skipping Tailwind setup."]
      (t3, none)

/-- The i18n block of the `part_002` `main` (lines 363-376): install
(fatal on failure), then `createI18nConfig`. -/
def i18nStageP2 (opts : CliOptions) (env : EnvP2)
    (projectName projectPath : String) : List Effect × Option Nat :=
  if !opts.i18n then ([], none)
  else
    let t := [Effect.runCmd (i18nInstallCommandP2 projectName opts.packageManager)]
    if !env.i18nInstallOk then (t, some 1)
    else
      let res := createI18nConfigP2 projectPath env.mainTsx
      (t ++ res.1, if res.2 then some 1 else none)

/-- The login page template of the `part_002` auth block. -/
def loginP2 : String :=
  "import \x7b createFileRoute \x7d from \x27@tanstack/react-router\x27\n\nexport const Route = createFileRoute(\x27/_layout_auth/login\x27)(\x7b\n  component: RouteComponent,\n\x7d)\n\nfunction RouteComponent() \x7b\n  return <div>Hello \"/_layout_auth/login\"!</div>\n\x7d\n  "

/-- The register page template of the `part_002` auth block. -/
def registerP2 : String :=
  "import \x7b createFileRoute \x7d from \x27@tanstack/react-router\x27\n\nexport const Route = createFileRoute(\x27/_layout_auth/register\x27)(\x7b\n  component: RouteComponent,\n\x7d)\n\nfunction RouteComponent() \x7b\n  return <div>Hello \"/_layout_auth/register\"!</div>\n\x7d\n\n"

/-- The auth layout template of the `part_002` auth block. -/
def authLayoutP2 : String :=
  "import \x7b createFileRoute, Outlet \x7d from \x27@tanstack/react-router\x27\n\nexport const Route = createFileRoute(\x27/_layout_auth\x27)(\x7b\n  component: RouteComponent,\n\x7d)\n\nfunction RouteComponent() \x7b\n  return <Outlet />\n\x7d\n    "

/-- The auth block of the `part_002` `main` (lines 378-430): create the
layout directory and write the three route files; never aborts. -/
def authStageP2 (opts : CliOptions) (projectPath : String) : List Effect :=
  if !opts.authPages then []
  else
    let authPath := projectPath ++ "/src/routes/_layout_auth"
    [Effect.mkdir authPath,
     Effect.writeFile (authPath ++ "/login.tsx") loginP2,
     Effect.writeFile (authPath ++ "/register.tsx") registerP2,
     Effect.writeFile (projectPath ++ "/src/routes/_layout_auth.tsx") authLayoutP2]

/-- The git block of the `part_002` `main` (lines 434-443): run the init
command; a failure is only warned about. -/
def gitStageP2 (env : EnvP2) (projectName : String) : List Effect :=
  [Effect.runCmd (gitInitCommandP2 projectName)] ++
    (if !env.gitInitOk then
      [Effect.logWarning "Git initialization failed. You may need to initialize it manually."]
    else [])

/-- Is the project name missing, i.e. JavaScript-falsy
(`undefined` or the empty string)? -/
def nameMissing : Option String → Bool
  | none => true
  | some s => s.data.isEmpty

/-- Embedding of `main` from `src/unnamed/part_002` (lines 251-461)
after argument parsing.  `showHelp` ends in `process.exit(0)`, so both
the `--help` path and the missing-name path terminate with exit status
0 before touching anything.  The existing-directory check exits with
status 1 before any subprocess or write.  Afterwards: clone, manifest
rewrite, optional `bin` cleanup, base install, the three feature
blocks, `.git` removal and git reinitialization. -/
def mainAfterParseP2 (opts : CliOptions) (env : EnvP2) :
    List Effect × MainOutcome :=
  if opts.help then ([], .exitCode 0)
  else if nameMissing opts.projectName then
    ([Effect.logError "Please provide a project name"], .exitCode 0)
  else
    let projectName := opts.projectName.getD ""
    let projectPath := env.cwd ++ "/" ++ projectName
    if env.dirExists then
      ([Effect.logError ("The directory " ++ projectName ++ " already exists.")], .exitCode 1)
    else
      let t1 := [Effect.runCmd (gitCloneCommand projectName)]
      if !env.cloneOk then (t1, .exitCode 1)
      else
        match env.pkgJson with
        | none => (t1 ++ [Effect.logError "Failed to update package.json"], .exitCode 1)
        | some obj =>
          let t2 := t1 ++ [Effect.writeJson (projectPath ++ "/package.json")
            (updatePackageJson obj projectName)]
          let t3 := t2 ++ (if env.binExists then [Effect.rmrf (env.cwd ++ "/bin")] else [])
          let t4 := t3 ++ [Effect.runCmd (installDepsCommand projectName opts.packageManager)]
          if !env.installOk then (t4, .exitCode 1)
          else
            match tailwindStageP2 opts env projectName projectPath with
            | (tw, some code) => (t4 ++ tw, .exitCode code)
            | (tw, none) =>
              let t5 := t4 ++ tw
              match i18nStageP2 opts env projectName projectPath with
              | (ie, some code) => (t5 ++ ie, .exitCode code)
              | (ie, none) =>
                let t6 := t5 ++ ie
                let t7 := t6 ++ authStageP2 opts projectPath
                let t8 := t7 ++ [Effect.rmrf (projectPath ++ "/.git")] ++
                  gitStageP2 env projectName
                (t8, .completed)

/-! ### Helper lemmas -/

theorem strExt (a b : String) (h : a.data = b.data) : a = b := by
  cases a; cases b; exact congrArg String.mk h

theorem dataAppend (a b : String) : (a ++ b).data = a.data ++ b.data := by
  cases a; cases b; rfl

theorem strAppendRightInj (s a b : String) (h : a ≠ b) : s ++ a ≠ s ++ b := by
  intro he
  apply h
  apply strExt
  have hd := congrArg String.data he
  rw [dataAppend, dataAppend] at hd
  exact List.append_cancel_left hd

theorem readF_writeF_ne (fs : FS) (p q c : String) (h : p ≠ q) :
    (fs.writeF q c).readF p = fs.readF p := by
  have hq : ¬(q = p) := fun hqe => h hqe.symm
  simp [FS.readF, FS.writeF, getField, hq]

theorem readF_writeTranslationFile_ne (fs : FS) (p q c : String) (h : p ≠ q) :
    (writeTranslationFile fs q c).readF p = fs.readF p := by
  unfold writeTranslationFile
  split
  · rfl
  · exact readF_writeF_ne fs p q c h

theorem getField_map_update (k v k2 : String) (h : k2 ≠ k) :
    ∀ obj : List (String × String),
      getField (obj.map fun kv => if kv.1 = k then (k, v) else kv) k2 =
        getField obj k2 := by
  have hkk2 : ¬(k = k2) := fun he => h he.symm
  intro obj
  induction obj with
  | nil => rfl
  | cons kv rest ih =>
    by_cases hk : kv.1 = k
    · simp [getField, hk, hkk2, ih]
    · simp [getField, hk, ih]

theorem getField_append_single_ne (k v k2 : String) (h : k2 ≠ k) :
    ∀ obj : List (String × String),
      getField (obj ++ [(k, v)]) k2 = getField obj k2 := by
  have hkk2 : ¬(k = k2) := fun he => h he.symm
  intro obj
  induction obj with
  | nil => simp [getField, hkk2]
  | cons kv rest ih =>
    by_cases hk : kv.1 = k2 <;> simp [getField, hk, ih]

theorem getField_setField_ne (obj : List (String × String)) (k v k2 : String)
    (h : k2 ≠ k) : getField (setField obj k v) k2 = getField obj k2 := by
  unfold setField
  split
  · exact getField_map_update k v k2 h obj
  · exact getField_append_single_ne k v k2 h obj

theorem getField_map_update_self (k v : String) :
    ∀ obj : List (String × String), (getField obj k).isSome = true →
      getField (obj.map fun kv => if kv.1 = k then (k, v) else kv) k = some v := by
  intro obj
  induction obj with
  | nil => intro h; simp [getField] at h
  | cons kv rest ih =>
    intro h
    by_cases hk : kv.1 = k
    · simp [getField, hk]
    · simp [getField, hk] at h ⊢
      exact ih h

theorem getField_append_single_self (k v : String) :
    ∀ obj : List (String × String), getField obj k = none →
      getField (obj ++ [(k, v)]) k = some v := by
  intro obj
  induction obj with
  | nil => intro _; simp [getField]
  | cons kv rest ih =>
    intro h
    by_cases hk : kv.1 = k <;> simp [getField, hk] at h ⊢
    exact ih h

theorem getField_setField_self (obj : List (String × String)) (k v : String) :
    getField (setField obj k v) k = some v := by
  unfold setField
  split
  · next h => exact getField_map_update_self k v obj h
  · next h =>
    exact getField_append_single_self k v obj (Option.not_isSome_iff_eq_none.mp h)

/-! ### Claim theorems -/

/-- C4: a file state already containing the composer's marker string —
`I18nextProvider` in the entry file for the i18n composer, the
`@tailwindcss/vite` import and `tailwindcss()` plugin reference in the
build config for the tailwind composer, the
`@tanstack/react-query-devtools` import and rendered
`<ReactQueryDevtools />` in the root route for the react-query composer
— is left completely unchanged by re-running that composer's patch
step; no duplicate import, provider or plugin registration is
inserted. -/
theorem composer_patches_idempotent_on_marker (entry vite root : String) :
    (containsStr entry "I18nextProvider" = true → patchMainForI18n entry = entry) ∧
    (containsStr vite "@tailwindcss/vite" = true →
      containsStr vite "tailwindcss()" = true →
      patchViteForTailwind vite = vite) ∧
    (containsStr root "@tanstack/react-query-devtools" = true →
      containsStr root "<ReactQueryDevtools />" = true →
      patchRootForReactQuery root = root) := by
  refine ⟨fun h => ?_, fun h1 h2 => ?_, fun h1 h2 => ?_⟩
  · simp [patchMainForI18n, h]
  · simp [patchViteForTailwind, h1, h2]
  · simp [patchRootForReactQuery, h1, h2]

/-- Witness for C4 at concrete already-patched file contents. -/
theorem composer_patches_idempotent_on_marker_witness :
    patchMainForI18n "x I18nextProvider x" = "x I18nextProvider x" ∧
    patchViteForTailwind "x @tailwindcss/vite x tailwindcss() x" =
      "x @tailwindcss/vite x tailwindcss() x" ∧
    patchRootForReactQuery "x @tanstack/react-query-devtools x <ReactQueryDevtools /> x" =
      "x @tanstack/react-query-devtools x <ReactQueryDevtools /> x" :=
  ⟨(composer_patches_idempotent_on_marker "x I18nextProvider x" "" "").1 (by decide),
   (composer_patches_idempotent_on_marker ""
      "x @tailwindcss/vite x tailwindcss() x" "").2.1 (by decide) (by decide),
   (composer_patches_idempotent_on_marker "" ""
      "x @tanstack/react-query-devtools x <ReactQueryDevtools /> x").2.2
      (by decide) (by decide)⟩

theorem readF_writeTranslationFile_preserved (fs : FS) (p q c v : String)
    (h : fs.readF p = some v) :
    (writeTranslationFile fs q c).readF p = some v := by
  by_cases hpq : p = q
  · subst hpq
    unfold writeTranslationFile
    have he : fs.existsF p = true := by simp [FS.existsF, FS.readF] at h ⊢; simp [h]
    simp [he, h]
  · rw [readF_writeTranslationFile_ne _ _ _ _ hpq]; exact h

theorem readF_writeIfMissing_preserved (fs : FS) (p q c v : String)
    (h : fs.readF p = some v) :
    ((if fs.existsF q then fs else fs.writeF q c) : FS).readF p = some v := by
  by_cases hq : fs.existsF q = true
  · simp [hq, h]
  · have hpq : p ≠ q := by
      intro he
      subst he
      have he2 : fs.existsF p = true := by simp [FS.existsF, FS.readF] at h ⊢; simp [h]
      exact hq he2
    simp only [hq, if_neg, Bool.not_eq_true, if_false]
    rw [readF_writeF_ne _ _ _ _ hpq]
    exact h

theorem configureI18nFilesCli_preserves (fs : FS) (proj p v : String)
    (hmain : p ≠ proj ++ "/src/main.tsx") (h : fs.readF p = some v) :
    (configureI18nFilesCli fs proj).readF p = some v := by
  simp only [configureI18nFilesCli]
  apply readF_writeIfMissing_preserved
  have h3 : ((writeTranslationFile
      (writeTranslationFile fs (proj ++ "/locales/en/translation.json") enTranslationCli)
      (proj ++ "/locales/tr/translation.json") trTranslationCli) : FS).readF p = some v :=
    readF_writeTranslationFile_preserved _ _ _ _ _
      (readF_writeTranslationFile_preserved _ _ _ _ _ h)
  have h4 := readF_writeIfMissing_preserved _ p (proj ++ "/src/i18n.ts") i18nConfigCli v h3
  generalize hfs3 : (if FS.existsF (writeTranslationFile
      (writeTranslationFile fs (proj ++ "/locales/en/translation.json") enTranslationCli)
      (proj ++ "/locales/tr/translation.json") trTranslationCli)
        (proj ++ "/src/i18n.ts") = true then
      (writeTranslationFile
        (writeTranslationFile fs (proj ++ "/locales/en/translation.json") enTranslationCli)
        (proj ++ "/locales/tr/translation.json") trTranslationCli)
    else FS.writeF (writeTranslationFile
        (writeTranslationFile fs (proj ++ "/locales/en/translation.json") enTranslationCli)
        (proj ++ "/locales/tr/translation.json") trTranslationCli)
        (proj ++ "/src/i18n.ts") i18nConfigCli) = fs3 at h4 ⊢
  cases hm : fs3.readF (proj ++ "/src/main.tsx") with
  | none => simp [hm, h4]
  | some c =>
    simp only [hm]
    by_cases hmark : containsStr c "I18nextProvider" = true
    · simp [hmark, h4]
    · simp only [hmark, if_neg, Bool.not_eq_true, if_false]
      rw [readF_writeF_ne _ _ _ _ hmain]
      exact h4

/-- C10: `writeTranslationFile` writes only when no file exists at the
target path, so a pre-existing translation file keeps its content, and
re-running the whole cli.js i18n composer leaves the contents of both
pre-existing translation files unchanged. -/
theorem writeTranslationFile_never_overwrites
    (fs : FS) (p c v proj : String) :
    (fs.readF p = some v → writeTranslationFile fs p c = fs) ∧
    (fs.readF (proj ++ "/locales/en/translation.json") = some v →
      (configureI18nFilesCli fs proj).readF
        (proj ++ "/locales/en/translation.json") = some v) ∧
    (fs.readF (proj ++ "/locales/tr/translation.json") = some v →
      (configureI18nFilesCli fs proj).readF
        (proj ++ "/locales/tr/translation.json") = some v) := by
  refine ⟨?_, ?_, ?_⟩
  · intro h
    unfold writeTranslationFile
    have he : fs.existsF p = true := by simp [FS.existsF, FS.readF] at h ⊢; simp [h]
    simp [he]
  · intro h
    exact configureI18nFilesCli_preserves fs proj _ v
      (strAppendRightInj _ _ _ (by decide)) h
  · intro h
    exact configureI18nFilesCli_preserves fs proj _ v
      (strAppendRightInj _ _ _ (by decide)) h

/-- Witness for C10: a filesystem already holding both translation
files keeps their contents across `writeTranslationFile` and across the
whole composer. -/
theorem writeTranslationFile_never_overwrites_witness :
    writeTranslationFile ⟨[("p/locales/en/translation.json", "old"),
        ("p/locales/tr/translation.json", "eski")]⟩
      ("p" ++ "/locales/en/translation.json") enTranslationCli =
      ⟨[("p/locales/en/translation.json", "old"),
        ("p/locales/tr/translation.json", "eski")]⟩ ∧
    (configureI18nFilesCli ⟨[("p/locales/en/translation.json", "old"),
        ("p/locales/tr/translation.json", "eski")]⟩ "p").readF
      ("p" ++ "/locales/en/translation.json") = some "old" ∧
    (configureI18nFilesCli ⟨[("p/locales/en/translation.json", "old"),
        ("p/locales/tr/translation.json", "eski")]⟩ "p").readF
      ("p" ++ "/locales/tr/translation.json") = some "eski" :=
  ⟨(writeTranslationFile_never_overwrites
      ⟨[("p/locales/en/translation.json", "old"),
        ("p/locales/tr/translation.json", "eski")]⟩
      ("p" ++ "/locales/en/translation.json") enTranslationCli "old" "p").1 (by decide),
   (writeTranslationFile_never_overwrites
      ⟨[("p/locales/en/translation.json", "old"),
        ("p/locales/tr/translation.json", "eski")]⟩
      "q" "c" "old" "p").2.1 (by decide),
   (writeTranslationFile_never_overwrites
      ⟨[("p/locales/en/translation.json", "old"),
        ("p/locales/tr/translation.json", "eski")]⟩
      "q" "c" "eski" "p").2.2 (by decide)⟩

/-- C8: after a successful clone the pipeline writes back the manifest
rewritten by `updatePackageJson`, which sets the `name` field to the
project name, sets the `version` field to `1.0.0`, and leaves every
other field unchanged. -/
theorem updatePackageJson_sets_name_version_preserves_rest
    (obj : List (String × String)) (projectName k : String)
    (opts : CliOptions) (env : EnvP2) :
    getField (updatePackageJson obj projectName) "name" = some projectName ∧
    getField (updatePackageJson obj projectName) "version" = some "1.0.0" ∧
    (k ≠ "name" → k ≠ "version" →
      getField (updatePackageJson obj projectName) k = getField obj k) ∧
    (opts.help = false → opts.projectName = some projectName →
     projectName.data.isEmpty = false → env.dirExists = false →
     env.cloneOk = true → env.pkgJson = some obj →
     Effect.writeJson (env.cwd ++ "/" ++ projectName ++ "/package.json")
       (updatePackageJson obj projectName) ∈ (mainAfterParseP2 opts env).1) := by
  refine ⟨?_, ?_, ?_, ?_⟩
  · unfold updatePackageJson
    rw [getField_setField_ne _ _ _ _ (by decide)]
    exact getField_setField_self obj "name" projectName
  · exact getField_setField_self _ "version" "1.0.0"
  · intro h1 h2
    unfold updatePackageJson
    rw [getField_setField_ne _ _ _ _ h2, getField_setField_ne _ _ _ _ h1]
  · intro h1 h2 h3 h4 h5 h6
    simp only [mainAfterParseP2, h1, h2, h4, h5, h6, nameMissing, h3,
      Bool.false_eq_true, if_false, Option.getD_some, Bool.not_true, if_true]
    by_cases h7 : env.installOk = true
    · simp only [h7, Bool.not_true, Bool.false_eq_true, if_false]
      rcases htw : tailwindStageP2 opts env projectName
          (env.cwd ++ "/" ++ projectName) with ⟨tw, two⟩
      cases two with
      | some code => simp [List.mem_append]
      | none =>
        rcases hie : i18nStageP2 opts env projectName
            (env.cwd ++ "/" ++ projectName) with ⟨ie, ieo⟩
        cases ieo with
        | some code => simp [List.mem_append]
        | none => simp [List.mem_append]
    · simp only [eq_false_of_ne_true h7, Bool.not_false, if_true]
      simp [List.mem_append]

/-- Witness for C8 at a concrete manifest. -/
theorem updatePackageJson_sets_name_version_preserves_rest_witness :
    getField (updatePackageJson
        [("name", "custom-react-starter"), ("version", "0.0.1"),
         ("license", "MIT")] "my-app") "name" = some "my-app" ∧
    getField (updatePackageJson
        [("name", "custom-react-starter"), ("version", "0.0.1"),
         ("license", "MIT")] "my-app") "version" = some "1.0.0" ∧
    getField (updatePackageJson
        [("name", "custom-react-starter"), ("version", "0.0.1"),
         ("license", "MIT")] "my-app") "license" = some "MIT" ∧
    Effect.writeJson ("/home" ++ "/" ++ "my-app" ++ "/package.json")
      (updatePackageJson
        [("name", "custom-react-starter"), ("version", "0.0.1"),
         ("license", "MIT")] "my-app") ∈
      (mainAfterParseP2 ⟨false, false, some "my-app", false, "pnpm", false⟩
        ⟨"/home", false, true,
         some [("name", "custom-react-starter"), ("version", "0.0.1"),
               ("license", "MIT")],
         false, true, true, none, true, some "", true⟩).1 := by
  have h := updatePackageJson_sets_name_version_preserves_rest
    [("name", "custom-react-starter"), ("version", "0.0.1"), ("license", "MIT")]
    "my-app" "license"
    ⟨false, false, some "my-app", false, "pnpm", false⟩
    ⟨"/home", false, true,
     some [("name", "custom-react-starter"), ("version", "0.0.1"),
           ("license", "MIT")],
     false, true, true, none, true, some "", true⟩
  refine ⟨h.1, h.2.1, h.2.2.1 (by decide) (by decide), ?_⟩
  have hm := h.2.2.2 rfl rfl rfl rfl rfl rfl
  have hold : getField
      (updatePackageJson
        [("name", "custom-react-starter"), ("version", "0.0.1"),
         ("license", "MIT")] "my-app") "license" = some "MIT" := h.2.2.1 (by decide) (by decide)
  exact hm

/-- C2: when the target project directory already exists, the flag-based
pipeline prints the error and exits with status 1 before any subprocess
or filesystem mutation: its whole trace is the one diagnostic
message. -/
theorem pipeline_aborts_before_subprocess_when_directory_exists
    (opts : CliOptions) (env : EnvP2) (projectName : String)
    (h1 : opts.help = false) (h2 : opts.projectName = some projectName)
    (h3 : projectName.data.isEmpty = false) (h4 : env.dirExists = true) :
    mainAfterParseP2 opts env =
      ([Effect.logError ("The directory " ++ projectName ++ " already exists.")],
       .exitCode 1) ∧
    ∀ e ∈ (mainAfterParseP2 opts env).1, e.mutates = false := by
  have hmain : mainAfterParseP2 opts env =
      ([Effect.logError ("The directory " ++ projectName ++ " already exists.")],
       .exitCode 1) := by
    simp [mainAfterParseP2, h1, h2, h3, h4, nameMissing]
  refine ⟨hmain, ?_⟩
  rw [hmain]
  intro e he
  simp only [List.mem_singleton] at he
  subst he
  rfl

/-- Witness for C2 at a concrete pre-existing directory. -/
theorem pipeline_aborts_before_subprocess_when_directory_exists_witness :
    mainAfterParseP2 ⟨true, true, some "my-app", false, "yarn", true⟩
      ⟨"/home", true, false, none, true, false, false, none, false, none, false⟩ =
      ([Effect.logError ("The directory " ++ "my-app" ++ " already exists.")],
       .exitCode 1) :=
  (pipeline_aborts_before_subprocess_when_directory_exists
    ⟨true, true, some "my-app", false, "yarn", true⟩
    ⟨"/home", true, false, none, true, false, false, none, false, none, false⟩
    "my-app" rfl rfl rfl rfl).1

/-- C9: any argument starting with `--all` or `-a` makes `parseArgs`
return immediately with the three features enabled and everything else
at its default, so the package manager is always `pnpm` and a `--pm=`
flag elsewhere in the argument list is neither applied nor validated
(the parser succeeds even on an unsupported value). -/
theorem allFlag_short_circuit_pm_default (args : List String)
    (h : args.any (fun a => strStartsWith a "--all" || strStartsWith a "-a") = true) :
    parseArgs args =
      .ok ⟨true, true, args.find? (fun a => !strStartsWith a "--"),
           false, "pnpm", true⟩ := by
  simp [parseArgs, h, defaultOptions]

/-- Witness for C9: `-a` together with an unsupported `--pm=` value
still parses successfully, with the default package manager. -/
theorem allFlag_short_circuit_pm_default_witness :
    parseArgs ["-a", "--pm=notapm"] =
      .ok ⟨true, true, some "-a", false, "pnpm", true⟩ := by
  have h := allFlag_short_circuit_pm_default ["-a", "--pm=notapm"] (by decide)
  rw [h]
  decide

theorem tailwindStageP2_no_abort (opts : CliOptions) (env : EnvP2)
    (projectName projectPath : String)
    (h : opts.tailwind = true → env.tailwindInstallOk = true) :
    (tailwindStageP2 opts env projectName projectPath).2 = none := by
  by_cases htw : opts.tailwind = true
  · simp [tailwindStageP2, htw, h htw]
  · simp [tailwindStageP2, eq_false_of_ne_true htw]

/-- C6: in a run where every fatal step succeeds, a `main.tsx` that
lacks the `index.css` anchor patterns only produces a `log.error`
diagnostic, a failing git reinitialization only produces a warning, and
the pipeline still runs to completion, i.e. exits with status 0; and
the interactive variant's `initializeGitRepository` turns a failing git
command into a warning instead of terminating. -/
theorem missing_anchor_and_git_failure_are_warnings
    (opts : CliOptions) (env : EnvP2) (projectName mc : String)
    (obj : List (String × String))
    (h1 : opts.help = false) (h2 : opts.projectName = some projectName)
    (h3 : projectName.data.isEmpty = false) (h4 : env.dirExists = false)
    (h5 : env.cloneOk = true) (h6 : env.pkgJson = some obj)
    (h7 : env.installOk = true)
    (h8 : opts.tailwind = true → env.tailwindInstallOk = true)
    (h9 : opts.i18n = true) (h10 : env.i18nInstallOk = true)
    (h11 : env.mainTsx = some mc)
    (h12 : containsStr mc "i18n" = false)
    (h13 : patternsP2.find? (fun p => containsStr mc p) = none)
    (h14 : env.gitInitOk = false) :
    ((mainAfterParseP2 opts env).2 = .completed ∧
     Effect.logError "Could not find index.css import in main.tsx" ∈
       (mainAfterParseP2 opts env).1 ∧
     Effect.logWarning "Git initialization failed. You may need to initialize it manually." ∈
       (mainAfterParseP2 opts env).1) ∧
    (∀ cmdOk : String → Bool, cmdOk "git init --quiet" = false →
      initializeGitRepository cmdOk =
        .warned "Git initialization skipped: Git command failed: git init --quiet") := by
  refine ⟨?_, ?_⟩
  · have hie : i18nStageP2 opts env projectName (env.cwd ++ "/" ++ projectName) =
        ([Effect.runCmd (i18nInstallCommandP2 projectName opts.packageManager)] ++
          ([Effect.mkdir (env.cwd ++ "/" ++ projectName ++ "/locales/en"),
            Effect.mkdir (env.cwd ++ "/" ++ projectName ++ "/locales/tr"),
            Effect.mkdir (env.cwd ++ "/" ++ projectName ++ "/src/@types"),
            Effect.writeFile (env.cwd ++ "/" ++ projectName ++ "/locales/en" ++ "/translation.json") enTranslationP2,
            Effect.writeFile (env.cwd ++ "/" ++ projectName ++ "/locales/tr" ++ "/translation.json") trTranslationP2,
            Effect.writeFile (env.cwd ++ "/" ++ projectName ++ "/src/i18n.ts") i18nConfigFileP2] ++
           [Effect.logError "Could not find index.css import in main.tsx"] ++
           [Effect.writeFile (env.cwd ++ "/" ++ projectName ++ "/src/@types" ++ "/i18n.d.ts") i18nTypeDefsP2]),
         none) := by
      simp [i18nStageP2, h9, h10, createI18nConfigP2, h11, h12, h13]
    simp only [mainAfterParseP2, h1, h2, h4, h5, h6, h7, nameMissing, h3,
      Bool.false_eq_true, if_false, Option.getD_some, Bool.not_true, if_true,
      Bool.not_false]
    rcases htw : tailwindStageP2 opts env projectName
        (env.cwd ++ "/" ++ projectName) with ⟨tw, two⟩
    have htwo : two = none := by
      have := tailwindStageP2_no_abort opts env projectName
        (env.cwd ++ "/" ++ projectName) h8
      rw [htw] at this
      exact this
    subst htwo
    rw [hie]
    refine ⟨rfl, ?_, ?_⟩
    · simp [List.mem_append]
    · simp [gitStageP2, h14, List.mem_append]
  · intro cmdOk hc
    simp [initializeGitRepository, hc]

/-- Witness for C6 at a concrete run: all features off except i18n, a
`main.tsx` without the anchor, and a failing git init. -/
theorem missing_anchor_and_git_failure_are_warnings_witness :
    ((mainAfterParseP2 ⟨false, true, some "app", false, "pnpm", false⟩
        ⟨"/h", false, true, some [], false, true, true, none, true,
         some "const x = 1", false⟩).2 = .completed ∧
     Effect.logError "Could not find index.css import in main.tsx" ∈
       (mainAfterParseP2 ⟨false, true, some "app", false, "pnpm", false⟩
        ⟨"/h", false, true, some [], false, true, true, none, true,
         some "const x = 1", false⟩).1 ∧
     Effect.logWarning "Git initialization failed. You may need to initialize it manually." ∈
       (mainAfterParseP2 ⟨false, true, some "app", false, "pnpm", false⟩
        ⟨"/h", false, true, some [], false, true, true, none, true,
         some "const x = 1", false⟩).1) ∧
    initializeGitRepository (fun _ => false) =
      .warned "Git initialization skipped: Git command failed: git init --quiet" := by
  have h := missing_anchor_and_git_failure_are_warnings
    ⟨false, true, some "app", false, "pnpm", false⟩
    ⟨"/h", false, true, some [], false, true, true, none, true,
     some "const x = 1", false⟩
    "app" "const x = 1" []
    rfl rfl rfl rfl rfl rfl rfl (fun _ => rfl) rfl rfl rfl
    (by decide) (by decide) rfl
  exact ⟨h.1, h.2 (fun _ => false) rfl⟩

theorem parseLoop_cons (a : String) (rest : List String) (opts : CliOptions)
    (h : strStartsWith a "--pm=" = true → validPMs.contains (pmValue a) = true) :
    parseLoop (a :: rest) opts = parseLoop rest (applyArg opts a) := by
  conv_lhs => rw [parseLoop]
  unfold applyArg
  split_ifs with h1 h2 h3 h4 h5 h6 h7 <;> try rfl
  exact absurd (h h5) h6

theorem parseLoop_ok_of_goodPm (args : List String) :
    ∀ opts : CliOptions,
      (∀ a ∈ args, strStartsWith a "--pm=" = true →
        validPMs.contains (pmValue a) = true) →
      parseLoop args opts = .ok (args.foldl applyArg opts) := by
  induction args with
  | nil => intro opts _; rfl
  | cons a rest ih =>
    intro opts h
    rw [parseLoop_cons a rest opts (h a (List.mem_cons_self a rest)),
      List.foldl_cons]
    exact ih (applyArg opts a) fun b hb => h b (List.mem_cons_of_mem a hb)

theorem parseLoop_exit_of_badPm (args : List String) :
    ∀ opts : CliOptions,
      (∃ a ∈ args, strStartsWith a "--pm=" = true ∧
        validPMs.contains (pmValue a) = false) →
      parseLoop args opts = .exit 1 := by
  induction args with
  | nil => intro opts h; simp at h
  | cons a rest ih =>
    intro opts h
    rcases h with ⟨b, hb, hbpm, hbbad⟩
    rcases List.mem_cons.mp hb with hba | hbrest
    · subst hba
      have h1 : ¬(b = "--tailwind") := by rintro rfl; exact absurd hbpm (by decide)
      have h2 : ¬(b = "--i18n") := by rintro rfl; exact absurd hbpm (by decide)
      have h3 : ¬(b = "--help" ∨ b = "-h") := by
        rintro (rfl | rfl) <;> exact absurd hbpm (by decide)
      have h4 : ¬(b = "--auth-pages") := by rintro rfl; exact absurd hbpm (by decide)
      have h6 : ¬(validPMs.contains (pmValue b) = true) := by
        rw [hbbad]; decide
      rw [parseLoop, if_neg h1, if_neg h2, if_neg h3, if_neg h4, if_pos hbpm,
        if_neg h6]
    · conv_lhs => rw [parseLoop]
      split_ifs <;> first
        | rfl
        | exact ih _ ⟨b, hbrest, hbpm, hbbad⟩

theorem foldl_applyArg_spec (args : List String) :
    ∀ opts : CliOptions,
      args.foldl applyArg opts =
        { tailwind := opts.tailwind || args.contains "--tailwind"
          i18n := opts.i18n || args.contains "--i18n"
          projectName :=
            (args.filter fun a => !strStartsWith a "--" && !(a == "-h")).foldl
              (fun _ n => some n) opts.projectName
          help := opts.help || args.contains "--help" || args.contains "-h"
          packageManager :=
            (args.filter fun a => strStartsWith a "--pm=").foldl
              (fun _ a => pmValue a) opts.packageManager
          authPages := opts.authPages || args.contains "--auth-pages" } := by
  induction args with
  | nil => intro opts; simp
  | cons a rest ih =>
    intro opts
    rw [List.foldl_cons, ih]
    by_cases h1 : a = "--tailwind"
    · subst h1
      simp [applyArg, List.contains_cons, List.filter_cons,
        show strStartsWith "--tailwind" "--" = true from by decide,
        show strStartsWith "--tailwind" "--pm=" = false from by decide]
    · by_cases h2 : a = "--i18n"
      · subst h2
        simp [applyArg, List.contains_cons, List.filter_cons,
          show strStartsWith "--i18n" "--" = true from by decide,
          show strStartsWith "--i18n" "--pm=" = false from by decide]
      · by_cases h3 : a = "--help" ∨ a = "-h"
        · rcases h3 with rfl | rfl
          · simp [applyArg, List.contains_cons, List.filter_cons,
              show strStartsWith "--help" "--" = true from by decide,
              show strStartsWith "--help" "--pm=" = false from by decide]
          · simp [applyArg, List.contains_cons, List.filter_cons,
              show strStartsWith "-h" "--" = false from by decide,
              show strStartsWith "-h" "--pm=" = false from by decide]
        · rw [not_or] at h3
          obtain ⟨h3a, h3b⟩ := h3
          have hb1 : (a == "--tailwind") = false := beq_eq_false_iff_ne.mpr h1
          have hb2 : (a == "--i18n") = false := beq_eq_false_iff_ne.mpr h2
          have hb3 : (a == "--help") = false := beq_eq_false_iff_ne.mpr h3a
          have hb4 : (a == "-h") = false := beq_eq_false_iff_ne.mpr h3b
          have hc1 : (("--tailwind" : String) == a) = false :=
            beq_eq_false_iff_ne.mpr fun he => h1 he.symm
          have hc2 : (("--i18n" : String) == a) = false :=
            beq_eq_false_iff_ne.mpr fun he => h2 he.symm
          have hc3 : (("--help" : String) == a) = false :=
            beq_eq_false_iff_ne.mpr fun he => h3a he.symm
          have hc4 : (("-h" : String) == a) = false :=
            beq_eq_false_iff_ne.mpr fun he => h3b he.symm
          have hd1 : decide ("--tailwind" = a) = false :=
            decide_eq_false fun he => h1 he.symm
          have hd2 : decide ("--i18n" = a) = false :=
            decide_eq_false fun he => h2 he.symm
          have hd3 : decide ("--help" = a) = false :=
            decide_eq_false fun he => h3a he.symm
          have hd4 : decide ("-h" = a) = false :=
            decide_eq_false fun he => h3b he.symm
          by_cases h4 : a = "--auth-pages"
          · subst h4
            simp [applyArg, List.contains_cons, List.filter_cons,
              show strStartsWith "--auth-pages" "--" = true from by decide,
              show strStartsWith "--auth-pages" "--pm=" = false from by decide]
          · have hb5 : (a == "--auth-pages") = false := beq_eq_false_iff_ne.mpr h4
            have hc5 : (("--auth-pages" : String) == a) = false :=
              beq_eq_false_iff_ne.mpr fun he => h4 he.symm
            have hd5 : decide ("--auth-pages" = a) = false :=
              decide_eq_false fun he => h4 he.symm
            by_cases h5 : strStartsWith a "--pm=" = true
            · have hpos : strStartsWith a "--" = true := by
                revert h5
                cases a with
                | mk data =>
                  cases data with
                  | nil => decide
                  | cons c1 t1 =>
                    cases t1 with
                    | nil =>
                      simp [strStartsWith, listStartsWith]
                    | cons c2 t2 =>
                      simp [strStartsWith, listStartsWith]
                      intro hc1 hc2 _
                      exact ⟨hc1, hc2⟩
              simp [applyArg, h1, h2, h3a, h3b, h4, h5, hpos,
                hb1, hb2, hb3, hb4, hb5, hc1, hc2, hc3, hc4, hc5,
                hd1, hd2, hd3, hd4, hd5,
                List.contains_cons, List.filter_cons]
            · have h5f : strStartsWith a "--pm=" = false := eq_false_of_ne_true h5
              by_cases h6 : strStartsWith a "--" = true
              · simp [applyArg, h1, h2, h3a, h3b, h4, h5f, h6,
                  hb1, hb2, hb3, hb4, hb5, hc1, hc2, hc3, hc4, hc5,
                  hd1, hd2, hd3, hd4, hd5,
                  List.contains_cons, List.filter_cons]
              · have h6f : strStartsWith a "--" = false := eq_false_of_ne_true h6
                simp [applyArg, h1, h2, h3a, h3b, h4, h5f, h6f,
                  hb1, hb2, hb3, hb4, hb5, hc1, hc2, hc3, hc4, hc5,
                  hd1, hd2, hd3, hd4, hd5,
                  List.contains_cons, List.filter_cons]

theorem find?_eq_head?_filter (p : String → Bool) (l : List String) :
    l.find? p = (l.filter p).head? := by
  induction l with
  | nil => rfl
  | cons a rest ih =>
    cases hp : p a with
    | true =>
      rw [List.find?_cons_of_pos _ hp, List.filter_cons_of_pos hp, List.head?_cons]
    | false =>
      have hp2 : ¬(p a = true) := by simp [hp]
      rw [List.find?_cons_of_neg _ hp2, List.filter_cons_of_neg hp2, ih]

theorem contains_of_mem (l : List String) (a : String) (h : a ∈ l) :
    l.contains a = true := by
  induction l with
  | nil => cases h
  | cons b rest ih =>
    rcases List.mem_cons.mp h with rfl | hr
    · simp [List.contains_cons]
    · rw [List.contains_cons, ih hr, Bool.or_true]

theorem contains_eq_false_of_not_mem (l : List String) (a : String)
    (h : a ∉ l) : l.contains a = false := by
  induction l with
  | nil => rfl
  | cons b rest ih =>
    have h1 : ¬(a = b) := fun he => h (by rw [he]; exact List.mem_cons_self b rest)
    have h2 : a ∉ rest := fun hr => h (List.mem_cons_of_mem b hr)
    rw [List.contains_cons, ih h2, Bool.or_false]
    exact beq_eq_false_iff_ne.mpr h1

/-- Every element of `expandAll args` is one of the three inserted
flags, or an element of `args` other than `--all`. -/
theorem mem_of_mem_expandAll : ∀ (args : List String) (b : String),
    b ∈ expandAll args →
    b = "--tailwind" ∨ b = "--i18n" ∨ b = "--auth-pages" ∨
      (b ∈ args ∧ ¬(b = "--all")) := by
  intro args
  induction args with
  | nil => intro b hb; simp [expandAll] at hb
  | cons a rest ih =>
    intro b hb
    rw [show expandAll (a :: rest) =
        (if a = "--all" then ["--tailwind", "--i18n", "--auth-pages"] else [a]) ++
          expandAll rest from rfl] at hb
    rcases List.mem_append.mp hb with hbl | hbr
    · by_cases ha : a = "--all"
      · rw [if_pos ha] at hbl
        simp at hbl
        rcases hbl with rfl | rfl | rfl
        · exact Or.inl rfl
        · exact Or.inr (Or.inl rfl)
        · exact Or.inr (Or.inr (Or.inl rfl))
      · rw [if_neg ha] at hbl
        simp at hbl
        subst hbl
        exact Or.inr (Or.inr (Or.inr ⟨List.mem_cons_self b rest, ha⟩))
    · rcases ih b hbr with h | h | h | h
      · exact Or.inl h
      · exact Or.inr (Or.inl h)
      · exact Or.inr (Or.inr (Or.inl h))
      · exact Or.inr (Or.inr (Or.inr ⟨List.mem_cons_of_mem a h.1, h.2⟩))

theorem mem_expandAll_of_allFlag : ∀ args : List String, "--all" ∈ args →
    "--tailwind" ∈ expandAll args ∧ "--i18n" ∈ expandAll args ∧
      "--auth-pages" ∈ expandAll args := by
  intro args
  induction args with
  | nil => intro h; cases h
  | cons a rest ih =>
    intro h
    rw [show expandAll (a :: rest) =
        (if a = "--all" then ["--tailwind", "--i18n", "--auth-pages"] else [a]) ++
          expandAll rest from rfl]
    rcases List.mem_cons.mp h with rfl | hr
    · rw [if_pos rfl]
      exact ⟨by simp, by simp, by simp⟩
    · have := ih hr
      exact ⟨List.mem_append_right _ this.1, List.mem_append_right _ this.2.1,
        List.mem_append_right _ this.2.2⟩

theorem filter_expandAll (p : String → Bool)
    (h1 : p "--all" = false) (h2 : p "--tailwind" = false)
    (h3 : p "--i18n" = false) (h4 : p "--auth-pages" = false) :
    ∀ args : List String, (expandAll args).filter p = args.filter p := by
  intro args
  induction args with
  | nil => rfl
  | cons a rest ih =>
    rw [show expandAll (a :: rest) =
        (if a = "--all" then ["--tailwind", "--i18n", "--auth-pages"] else [a]) ++
          expandAll rest from rfl, List.filter_append]
    by_cases ha : a = "--all"
    · rw [if_pos ha, ha, List.filter_cons, List.filter_cons, List.filter_cons,
        List.filter_cons]
      simp [h1, h2, h3, h4, ih]
    · rw [if_neg ha, List.filter_cons, List.filter_cons]
      by_cases hpa : p a = true
      · simp [hpa, ih]
      · simp [eq_false_of_ne_true hpa, ih]

/-- C7 (amended): in an argument list where nothing starts with `--all`
or `-a` (so the early-return branch is not taken), any `--pm=` argument
with an unsupported value makes `parseArgs` exit with status 1, and
when every `--pm=` value is supported the parse succeeds and the
resolved package manager is the value of the last `--pm=` argument. -/
theorem pm_flag_validation_without_allFlag (args : List String)
    (hall : ∀ a ∈ args,
      strStartsWith a "--all" = false ∧ strStartsWith a "-a" = false) :
    ((∃ a ∈ args, strStartsWith a "--pm=" = true ∧
        validPMs.contains (pmValue a) = false) → parseArgs args = .exit 1) ∧
    ((∀ a ∈ args, strStartsWith a "--pm=" = true →
        validPMs.contains (pmValue a) = true) →
      parseArgs args = .ok (args.foldl applyArg defaultOptions) ∧
      ∀ (pmArgs : List String) (b : String),
        args.filter (fun a => strStartsWith a "--pm=") = pmArgs ++ [b] →
        (args.foldl applyArg defaultOptions).packageManager = pmValue b) := by
  have hno : args.any
      (fun a => strStartsWith a "--all" || strStartsWith a "-a") = false := by
    rw [List.any_eq_false]
    intro a ha
    have := hall a ha
    simp [this.1, this.2]
  have hparse : parseArgs args = parseLoop args defaultOptions := by
    simp [parseArgs, hno]
  constructor
  · intro hex
    rw [hparse]
    exact parseLoop_exit_of_badPm args defaultOptions hex
  · intro hgood
    refine ⟨by rw [hparse]; exact parseLoop_ok_of_goodPm args defaultOptions hgood, ?_⟩
    intro pmArgs b hfil
    rw [foldl_applyArg_spec args defaultOptions]
    show ((args.filter fun a => strStartsWith a "--pm=").foldl
      (fun _ a => pmValue a) defaultOptions.packageManager) = pmValue b
    rw [hfil, List.foldl_append]
    rfl

/-- Witness for C7: a lone unsupported `--pm=` value exits with 1. -/
theorem pm_flag_validation_without_allFlag_witness :
    parseArgs ["--pm=bogus"] = .exit 1 :=
  (pm_flag_validation_without_allFlag ["--pm=bogus"] (by decide)).1
    ⟨"--pm=bogus", by decide, by decide, by decide⟩

/-- Counterexample to C7 as stated: with `--all` in the same argument
list, an unsupported `--pm=` value does not make the resolver fail —
parsing succeeds and the process does not exit. -/
theorem pm_validation_skipped_with_allFlag :
    parseArgs ["proj", "--all", "--pm=bogus"] =
      .ok ⟨true, true, some "proj", false, "pnpm", true⟩ ∧
    validPMs.contains (pmValue "--pm=bogus") = false := by decide

/-- C3 (amended): when the argument list contains `--all`, exactly one
positional (non-`--`) argument, no other argument reaching the `--all`/
`-a` prefix test, no `--pm=` flag and no help flag, parsing is the same
as parsing with `--all` replaced by
`--tailwind --i18n --auth-pages`, and both resolve to all three
features enabled with the default package manager. -/
theorem allFlag_equivalent_without_pm_help (args : List String) (name : String)
    (hmem : "--all" ∈ args)
    (hother : ∀ a ∈ args, ¬(a = "--all") →
      strStartsWith a "--all" = false ∧ strStartsWith a "-a" = false)
    (hnopm : ∀ a ∈ args, strStartsWith a "--pm=" = false)
    (hnohelp : "--help" ∉ args) (hnoh : "-h" ∉ args)
    (hpos : args.filter (fun a => !strStartsWith a "--") = [name]) :
    parseArgs args = parseArgs (expandAll args) ∧
    parseArgs args = .ok ⟨true, true, some name, false, "pnpm", true⟩ := by
  have htrig : args.any
      (fun a => strStartsWith a "--all" || strStartsWith a "-a") = true := by
    rw [List.any_eq_true]
    exact ⟨"--all", hmem, by decide⟩
  have hfind : args.find? (fun a => !strStartsWith a "--") = some name := by
    rw [find?_eq_head?_filter, hpos]; rfl
  have hLHS : parseArgs args = .ok ⟨true, true, some name, false, "pnpm", true⟩ := by
    simp [parseArgs, htrig, hfind, defaultOptions]
  have hnotrig : (expandAll args).any
      (fun a => strStartsWith a "--all" || strStartsWith a "-a") = false := by
    rw [List.any_eq_false]
    intro b hb
    rcases mem_of_mem_expandAll args b hb with rfl | rfl | rfl | hbm
    · decide
    · decide
    · decide
    · have := hother b hbm.1 hbm.2
      simp [this.1, this.2]
  have hgoodpm : ∀ b ∈ expandAll args, strStartsWith b "--pm=" = true →
      validPMs.contains (pmValue b) = true := by
    intro b hb hbpm
    rcases mem_of_mem_expandAll args b hb with rfl | rfl | rfl | hbm
    · exact absurd hbpm (by decide)
    · exact absurd hbpm (by decide)
    · exact absurd hbpm (by decide)
    · rw [hnopm b hbm.1] at hbpm
      cases hbpm
  have hcont := mem_expandAll_of_allFlag args hmem
  have hh1 : "--help" ∉ expandAll args := by
    intro hb
    rcases mem_of_mem_expandAll args _ hb with h | h | h | h
    · exact absurd h (by decide)
    · exact absurd h (by decide)
    · exact absurd h (by decide)
    · exact hnohelp h.1
  have hh2 : "-h" ∉ expandAll args := by
    intro hb
    rcases mem_of_mem_expandAll args _ hb with h | h | h | h
    · exact absurd h (by decide)
    · exact absurd h (by decide)
    · exact absurd h (by decide)
    · exact hnoh h.1
  have hfpm : (expandAll args).filter (fun a => strStartsWith a "--pm=") = [] := by
    rw [List.filter_eq_nil_iff]
    intro b hb
    rcases mem_of_mem_expandAll args b hb with rfl | rfl | rfl | hbm
    · decide
    · decide
    · decide
    · simp [hnopm b hbm.1]
  have hfpos : (expandAll args).filter
      (fun a => !strStartsWith a "--" && !(a == "-h")) = [name] := by
    rw [filter_expandAll _ (by decide) (by decide) (by decide) (by decide) args]
    have hcg : ∀ a ∈ args,
        (!strStartsWith a "--" && !(a == "-h")) = !strStartsWith a "--" := by
      intro a ha
      have hne : (a == "-h") = false :=
        beq_eq_false_iff_ne.mpr fun he => hnoh (he ▸ ha)
      simp [hne]
    rw [List.filter_congr hcg, hpos]
  have hRHS : parseArgs (expandAll args) =
      .ok ⟨true, true, some name, false, "pnpm", true⟩ := by
    rw [show parseArgs (expandAll args) =
        parseLoop (expandAll args) defaultOptions from by simp [parseArgs, hnotrig],
      parseLoop_ok_of_goodPm _ _ hgoodpm, foldl_applyArg_spec]
    simp [defaultOptions, hcont.1, hcont.2.1, hcont.2.2, hh1, hh2, hfpm, hfpos]
  exact ⟨hLHS.trans hRHS.symm, hLHS⟩

/-- Witness for C3 (amended) at a concrete argument list. -/
theorem allFlag_equivalent_without_pm_help_witness :
    parseArgs ["my-app", "--all"] = parseArgs (expandAll ["my-app", "--all"]) ∧
    parseArgs ["my-app", "--all"] =
      .ok ⟨true, true, some "my-app", false, "pnpm", true⟩ :=
  allFlag_equivalent_without_pm_help ["my-app", "--all"] "my-app"
    (by decide) (by decide) (by decide) (by decide) (by decide) (by decide)

/-- Counterexample to C3 as stated: with a `--pm=yarn` flag alongside,
`--all` and the expanded individual flags resolve to different options
— the early return of the `--all` branch skips the `--pm=` flag, so the
package manager stays `pnpm` instead of `yarn`. -/
theorem allFlag_not_equivalent_to_expanded_flags :
    parseArgs ["my-app", "--all", "--pm=yarn"] =
      .ok ⟨true, true, some "my-app", false, "pnpm", true⟩ ∧
    parseArgs ["my-app", "--tailwind", "--i18n", "--auth-pages", "--pm=yarn"] =
      .ok ⟨true, true, some "my-app", false, "yarn", true⟩ := by decide

/-- C1 (amended): the interactive validator accepts a name exactly when
its trimmed form matches `^[a-z0-9-]+$`, and rejects every other input
with an explanatory message (the rejection re-prompts; it does not
terminate the process, and the flag-based parser applies no such
validation at all). -/
theorem validateProjectName_accepts_iff_regex (name : String) :
    (validateProjectName name = .accepted ↔
      matchesNameRegex (strTrim name) = true) ∧
    (matchesNameRegex (strTrim name) = false →
      ∃ msg, validateProjectName name = .rejected msg) := by
  constructor
  · unfold validateProjectName
    by_cases h1 : (strTrim name).data.isEmpty = true
    · have hm : matchesNameRegex (strTrim name) = false := by
        simp [matchesNameRegex, h1]
      simp [h1, hm]
    · have h1f : (strTrim name).data.isEmpty = false := eq_false_of_ne_true h1
      by_cases h2 : matchesNameRegex (strTrim name) = true
      · simp [h1f, h2]
      · have h2f := eq_false_of_ne_true h2
        simp [h1f, h2f]
  · intro h
    unfold validateProjectName
    by_cases h1 : (strTrim name).data.isEmpty = true
    · refine ⟨"Project name cannot be empty", ?_⟩
      simp [h1]
    · have h1f := eq_false_of_ne_true h1
      refine ⟨"Project name should only contain lowercase letters, numbers, and hyphens", ?_⟩
      simp [h1f, h]

/-- Witness for C1 (amended) at the input `" My App "`. -/
theorem validateProjectName_accepts_iff_regex_witness :
    (validateProjectName " My App " = .accepted ↔
      matchesNameRegex (strTrim " My App ") = true) ∧
    (∃ msg, validateProjectName " My App " = .rejected msg) :=
  ⟨(validateProjectName_accepts_iff_regex " My App ").1,
   (validateProjectName_accepts_iff_regex " My App ").2 (by decide)⟩

/-- Counterexample to C1 as stated: the flag-based option resolver
accepts `UPPER`, which does not match `^[a-z0-9-]+$`, as the project
name with no error, and the pipeline then runs to completion with exit
status 0 — no InvalidName rejection and no nonzero abort. -/
theorem parseArgs_accepts_nonconforming_name :
    matchesNameRegex "UPPER" = false ∧
    parseArgs ["UPPER"] = .ok ⟨false, false, some "UPPER", false, "pnpm", false⟩ ∧
    (mainAfterParseP2 ⟨false, false, some "UPPER", false, "pnpm", false⟩
      ⟨"/home", false, true, some [], false, true, true, none, true,
       some "", true⟩).2 = .completed := by decide

/-- C5 (amended): for every package manager, the i18n install commands
of both variants and the cli.js tailwind/react-query install commands
use `npm install` for npm and `<pm> add` otherwise, each followed by a
package list that is the same constant for every package manager; the
`part_002` tailwind command instead uses `<pm> add -D` for every
package manager, npm included, again with a fixed package list. -/
theorem install_commands_shape_and_packages (projectName pm : String) :
    i18nInstallCommandP2 projectName pm =
      ("cd " ++ projectName ++ " && " ++
        (if pm = "npm" then "npm install " else pm ++ " add")) ++
        (" " ++ i18nPkgs) ∧
    i18nInstallCommandCli projectName pm =
      ("cd " ++ projectName ++ " && " ++
        (if pm = "npm" then "npm install" else pm ++ " add")) ++
        (" " ++ i18nPkgs) ∧
    tailwindInstallCommandCli pm =
      (if pm = "npm" then "npm install" else pm ++ " add") ++
        (" " ++ tailwindPkgs) ∧
    reactQueryInstallCommandCli pm =
      (if pm = "npm" then "npm install" else pm ++ " add") ++
        (" " ++ reactQueryPkgs) ∧
    tailwindCommandP2 projectName pm =
      ("cd " ++ projectName ++ " && " ++ pm) ++ (" add -D " ++ tailwindPkgs) := by
  refine ⟨?_, ?_, ?_, ?_, ?_⟩
  · unfold i18nInstallCommandP2
    rw [show (" i18next react-i18next i18next-http-backend i18next-browser-languagedetector" : String) =
      " " ++ i18nPkgs from by decide]
  · unfold i18nInstallCommandCli
    rw [show (" i18next react-i18next i18next-http-backend i18next-browser-languagedetector" : String) =
      " " ++ i18nPkgs from by decide]
  · unfold tailwindInstallCommandCli
    rw [show (" tailwindcss @tailwindcss/vite" : String) =
      " " ++ tailwindPkgs from by decide]
  · unfold reactQueryInstallCommandCli
    rw [show (" @tanstack/react-query @tanstack/react-query-devtools" : String) =
      " " ++ reactQueryPkgs from by decide]
  · unfold tailwindCommandP2
    rw [show (" add -D tailwindcss @tailwindcss/vite" : String) =
      " add -D " ++ tailwindPkgs from by decide]

/-- Counterexample to C5 as stated: the `part_002` tailwind install
command for npm is `cd p && npm add -D …`, not of the form
`npm install <packages>` — the string `npm install` does not occur in
it. -/
theorem tailwindCommandP2_npm_uses_add :
    tailwindCommandP2 "p" "npm" = "cd p && npm add -D tailwindcss @tailwindcss/vite" ∧
    containsStr (tailwindCommandP2 "p" "npm") "npm install" = false := by decide

end ReactStarter

